import Mathlib

/-!
# Verification of the burrow query router, mock backend and launcher UI logic

Shallow embedding of the browser-mode code of the burrow launcher:

* `mockSearch` — the mock `search` command handler (query routing and the
  per-provider mock result lists);
* `parseModifier` — modifier-key classification (`src/types.ts`);
* `executeAction`, `handleKeyDown`, `onVisibilityHidden` — the launcher
  component's dispatch and navigation logic, modelled as explicit state
  transitions that also report the backend commands they invoke;
* `appendSnapshot` — the `OutputView` line-buffer cap.

JS strings are modelled as their code-point lists (`List Char`); JS string
operations used by the code (`startsWith`, `trim`, `trimStart`, `slice`,
`toLowerCase`, `includes`) are given ASCII-faithful definitions below.
-/

namespace Burrow

/-- JS whitespace (the ASCII part of the `\s` / `trim` character class);
all queries exercised here are ASCII. -/
def jsWhite (c : Char) : Bool :=
  c = ' ' || c = '\t' || c = '\n' || c = '\r' || c = '\x0b' || c = '\x0c'

/-- JS `String.prototype.trimStart` on code-point lists. -/
def trimStartL (l : List Char) : List Char := l.dropWhile jsWhite

/-- JS `String.prototype.trimEnd` on code-point lists. -/
def trimEndL (l : List Char) : List Char := (l.reverse.dropWhile jsWhite).reverse

/-- JS `String.prototype.trim` on code-point lists. -/
def trimL (l : List Char) : List Char := trimEndL (trimStartL l)

/-- JS `String.prototype.toLowerCase`, restricted to ASCII case mapping. -/
def toLowerL (l : List Char) : List Char := l.map Char.toLower

/-- Does `s` start with `pre`?  (JS `s.startsWith(pre)`.) -/
def startsWithL : (pre s : List Char) → Bool
  | [], _ => true
  | _ :: _, [] => false
  | p :: ps, c :: cs => p == c && startsWithL ps cs

/-- Does `pat` occur contiguously inside `s`?  (JS `s.includes(pat)`.) -/
def includesL : (s pat : List Char) → Bool
  | [], pat => pat.isEmpty
  | s@(_ :: rest), pat => startsWithL pat s || includesL rest pat

/-- `InputSpec` of a search result that needs a secondary input step. -/
structure InputSpec where
  placeholder : String
  template : String
deriving Repr, DecidableEq

/-- The `SearchResult` record exchanged between backend and UI. -/
structure SearchResult where
  id : String
  name : String
  description : String
  icon : String
  category : String
  exec : String
  input_spec : Option InputSpec := none
deriving Repr, DecidableEq

/-! ## JS numbers and the arithmetic evaluator

The mock math provider evaluates the query with the JS engine
(`Function('"use strict"; return (query)')()`).  The engine is modelled here
for the arithmetic fragment the provider is meant for (the spec's grammar:
number literals, parentheses, unary sign, binary `+ - * / %`): values are
exact fractions of integers instead of IEEE doubles (exact on the inputs the
theorems evaluate), `Infinity`/`NaN` propagation follows JS, and any program
outside this fragment (letters, `^`, `**`, doubled sign without spacing, …)
is modelled as an evaluation failure, as a thrown JS error is. -/

/-- A JS number: a finite value `n / d` (with `d > 0` by construction),
a signed infinity, or `NaN`. -/
inductive JsNum
  | num (n d : Int)
  | inf (pos : Bool)
  | nan
deriving Repr, DecidableEq

/-- Build a finite value, normalising the sign into the numerator. -/
def mkNum (n d : Int) : JsNum :=
  if d < 0 then .num (-n) (-d) else .num n d

def JsNum.neg : JsNum → JsNum
  | .num n d => .num (-n) d
  | .inf b => .inf (!b)
  | .nan => .nan

def JsNum.add : JsNum → JsNum → JsNum
  | .nan, _ => .nan
  | _, .nan => .nan
  | .num a b, .num c d => .num (a * d + c * b) (b * d)
  | .num _ _, .inf s => .inf s
  | .inf s, .num _ _ => .inf s
  | .inf s, .inf t => if s = t then .inf s else .nan

def JsNum.sub (x y : JsNum) : JsNum := x.add y.neg

def JsNum.mul : JsNum → JsNum → JsNum
  | .nan, _ => .nan
  | _, .nan => .nan
  | .num a b, .num c d => .num (a * c) (b * d)
  | .num a _, .inf s => if a = 0 then .nan else if 0 < a then .inf s else .inf (!s)
  | .inf s, .num a _ => if a = 0 then .nan else if 0 < a then .inf s else .inf (!s)
  | .inf s, .inf t => .inf (s == t)

def JsNum.div : JsNum → JsNum → JsNum
  | .nan, _ => .nan
  | _, .nan => .nan
  | .num a b, .num c d =>
      if c = 0 then
        if a = 0 then .nan else if 0 < a then .inf true else .inf false
      else mkNum (a * d) (b * c)
  | .num _ _, .inf _ => .num 0 1
  | .inf s, .num a _ => if 0 ≤ a then .inf s else .inf (!s)
  | .inf _, .inf _ => .nan

/-- JS `%` (remainder truncating toward zero, sign of the dividend). -/
def JsNum.mod : JsNum → JsNum → JsNum
  | .nan, _ => .nan
  | _, .nan => .nan
  | .num a b, .num c d =>
      if c = 0 then .nan
      else JsNum.sub (.num a b) (JsNum.mul (.num c d) (.num (Int.tdiv (a * d) (b * c)) 1))
  | .num a b, .inf _ => .num a b
  | .inf _, _ => .nan

/-- `isFinite` on the modelled JS number. -/
def JsNum.isFiniteNum : JsNum → Bool
  | .num _ _ => true
  | _ => false

/-- JS number-to-string conversion; exact for integral values (the only ones
the theorems inspect), with a fraction literal standing in for JS
shortest-roundtrip float printing otherwise. -/
def JsNum.toDisplay : JsNum → String
  | .num n d => if Int.emod n d = 0 then toString (Int.ediv n d) else toString n ++ "/" ++ toString d
  | .inf true => "Infinity"
  | .inf false => "-Infinity"
  | .nan => "NaN"

/-- Tokens of the arithmetic fragment. -/
inductive Tok
  | num (n d : Int)
  | lparen | rparen
  | plus | minus | star | slash | percent
deriving Repr, DecidableEq

/-- Digit list to natural number. -/
def digitsToNat (ds : List Char) : Nat :=
  ds.foldl (fun n c => 10 * n + (c.toNat - '0'.toNat)) 0

/-- One step of the tokenizer, fuelled by the input length. -/
def tokenizeAux : Nat → List Char → Option (List Tok)
  | 0, _ => none
  | _ + 1, [] => some []
  | fuel + 1, c :: rest =>
    if jsWhite c then tokenizeAux fuel rest
    else if c = '(' then (tokenizeAux fuel rest).map (Tok.lparen :: ·)
    else if c = ')' then (tokenizeAux fuel rest).map (Tok.rparen :: ·)
    else if c = '+' then (tokenizeAux fuel rest).map (Tok.plus :: ·)
    else if c = '-' then (tokenizeAux fuel rest).map (Tok.minus :: ·)
    else if c = '*' then (tokenizeAux fuel rest).map (Tok.star :: ·)
    else if c = '/' then (tokenizeAux fuel rest).map (Tok.slash :: ·)
    else if c = '%' then (tokenizeAux fuel rest).map (Tok.percent :: ·)
    else if c.isDigit || c = '.' then
      let intDigits := (c :: rest).takeWhile Char.isDigit
      let afterInt := (c :: rest).dropWhile Char.isDigit
      let hasDot := decide (afterInt.take 1 = ['.'])
      let fracDigits := if hasDot then (afterInt.drop 1).takeWhile Char.isDigit else []
      let rest2 := if hasDot then (afterInt.drop 1).dropWhile Char.isDigit else afterInt
      if intDigits = [] && fracDigits = [] then none
      else
        let den : Nat := 10 ^ fracDigits.length
        let num : Nat := digitsToNat intDigits * den + digitsToNat fracDigits
        (tokenizeAux fuel rest2).map (Tok.num (Int.ofNat num) (Int.ofNat den) :: ·)
    else none

/-- Tokenizer for the arithmetic fragment (`none` models a JS syntax error). -/
def tokenize (l : List Char) : Option (List Tok) := tokenizeAux (l.length + 1) l

mutual

/-- Primary: number literal or parenthesised expression. -/
def parsePrimary : Nat → List Tok → Option (JsNum × List Tok)
  | 0, _ => none
  | fuel + 1, toks =>
    match toks with
    | .num n d :: rest => some (.num n d, rest)
    | .lparen :: rest =>
      match parseAdd fuel rest with
      | some (v, .rparen :: rest2) => some (v, rest2)
      | _ => none
    | _ => none

/-- Unary layer: an optional single `+`/`-` sign. -/
def parseUnary : Nat → List Tok → Option (JsNum × List Tok)
  | 0, _ => none
  | fuel + 1, toks =>
    match toks with
    | .minus :: rest => (parsePrimary fuel rest).map (fun p => (p.1.neg, p.2))
    | .plus :: rest => parsePrimary fuel rest
    | _ => parsePrimary fuel toks

/-- Multiplicative layer: left-associative `*`, `/`, `%`. -/
def parseMul : Nat → List Tok → Option (JsNum × List Tok)
  | 0, _ => none
  | fuel + 1, toks =>
    match parseUnary fuel toks with
    | some (v, rest) => parseMulRest fuel v rest
    | none => none

def parseMulRest : Nat → JsNum → List Tok → Option (JsNum × List Tok)
  | 0, _, _ => none
  | fuel + 1, acc, toks =>
    match toks with
    | .star :: rest =>
      match parseUnary fuel rest with
      | some (v, rest2) => parseMulRest fuel (acc.mul v) rest2
      | none => none
    | .slash :: rest =>
      match parseUnary fuel rest with
      | some (v, rest2) => parseMulRest fuel (acc.div v) rest2
      | none => none
    | .percent :: rest =>
      match parseUnary fuel rest with
      | some (v, rest2) => parseMulRest fuel (acc.mod v) rest2
      | none => none
    | _ => some (acc, toks)

/-- Additive layer: left-associative `+`, `-`. -/
def parseAdd : Nat → List Tok → Option (JsNum × List Tok)
  | 0, _ => none
  | fuel + 1, toks =>
    match parseMul fuel toks with
    | some (v, rest) => parseAddRest fuel v rest
    | none => none

def parseAddRest : Nat → JsNum → List Tok → Option (JsNum × List Tok)
  | 0, _, _ => none
  | fuel + 1, acc, toks =>
    match toks with
    | .plus :: rest =>
      match parseMul fuel rest with
      | some (v, rest2) => parseAddRest fuel (acc.add v) rest2
      | none => none
    | .minus :: rest =>
      match parseMul fuel rest with
      | some (v, rest2) => parseAddRest fuel (acc.sub v) rest2
      | none => none
    | _ => some (acc, toks)

end

/-- The JS engine's evaluation of the query string, in the modelled fragment
(`none` stands for a thrown error).  This pure function covers only the
arithmetic fragment; a query outside it (letters, calls, member access) is
evaluated by the engine against its mutable state — see `jsEvalIn`. -/
def jsEval (s : String) : Option JsNum :=
  match tokenize s.data with
  | none => none
  | some toks =>
    match parseAdd (8 * toks.length + 8) toks with
    | some (v, []) => some v
    | _ => none

/-- The JS engine's evaluation of a query in engine state `ω`: a pure
arithmetic expression evaluates the same in every state; any other program
(e.g. `Date.now()%2`, `Math.random()*2`, a syntax error) yields whatever
outcome — a number or a thrown error — the engine's mutable state `ω`
determines for it. -/
def jsEvalIn (ω : String → Option JsNum) (s : String) : Option JsNum :=
  match jsEval s with
  | some v => some v
  | none => ω s

/-! ## The mock `search` handler (`mockSearch`) -/

/-- `MATH_RE = /[+\-*\/^%()]/` — the characters whose presence routes a query
to math detection. -/
def mathChars : List Char := ['+', '-', '*', '/', '^', '%', '(', ')']

/-- `MATH_RE.test(query)`. -/
def mathReTest (l : List Char) : Bool := l.any (fun c => mathChars.contains c)

/-- The frecency mock returned for the empty query. -/
def historyResults : List SearchResult :=
  [{ id := "firefox", name := "Firefox", description := "Web Browser",
     icon := "firefox", category := "history", exec := "firefox" },
   { id := "kitty", name := "Kitty", description := "Terminal Emulator",
     icon := "kitty", category := "history", exec := "kitty" }]

/-- The fixed special-macro table of the `#` branch. -/
def specialsList : List SearchResult :=
  [{ id := "special-cowork", name := "cowork",
     description := "Open kitty in ~/cowork and run cc", icon := "",
     category := "special", exec := "kitty sh -c 'cd ~/cowork && cc'" }]

/-- The hint result of the `?` branch for an empty question. -/
def chatHintResult : SearchResult :=
  { id := "chat-hint", name := "Type a question after ?",
    description := "Press Enter to ask AI", icon := "", category := "info",
    exec := "" }

/-- The chat placeholder result of the `?` branch for question text `q`. -/
def chatAskOf (q : List Char) : SearchResult :=
  { id := "chat-ask", name := "Ask: " ++ String.mk q,
    description := "Press Enter to get an AI answer", icon := "",
    category := "chat", exec := "" }

/-- The two mock vector hits of the ` *` branch for semantic query `c`. -/
def vectorResults (c : List Char) : List SearchResult :=
  [{ id := "/home/user/docs/rust-guide.md", name := "rust-guide.md",
     description := "87% — A guide to " ++ String.mk c, icon := "",
     category := "vector", exec := "xdg-open /home/user/docs/rust-guide.md" },
   { id := "/home/user/notes/setup.txt", name := "setup.txt",
     description := "62% — Notes about " ++ String.mk c, icon := "",
     category := "vector", exec := "xdg-open /home/user/notes/setup.txt" }]

/-- The mock file hit of the leading-space branch for name filter `q`. -/
def fileResultOf (q : List Char) : SearchResult :=
  { id := "/home/user/Documents/" ++ String.mk q ++ ".txt",
    name := String.mk q ++ ".txt", description := "/home/user/Documents",
    icon := "", category := "file",
    exec := "xdg-open /home/user/Documents/" ++ String.mk q ++ ".txt" }

/-- The mock vault entry of the `!` branch for lookup term `q`. -/
def onepassResultOf (q : List Char) : SearchResult :=
  { id := "op-" ++ String.mk q, name := String.mk q, description := "Login",
    icon := "", category := "onepass", exec := "op item get " ++ String.mk q }

/-- The single mock SSH host of the `ssh` branch. -/
def sshDevboxResult : SearchResult :=
  { id := "ssh-devbox", name := "devbox", description := "admin@10.0.0.5",
    icon := "", category := "ssh", exec := "kitty ssh admin@devbox" }

/-- An entry of the fixed settings table of the `:` branch. -/
structure SettingEntry where
  id : String
  name : String
  description : String
deriving Repr, DecidableEq

/-- The fixed settings table of the `:` branch. -/
def settingsList : List SettingEntry :=
  [{ id := "reindex", name := ":reindex", description := "Reindex all files (full rebuild)" },
   { id := "update", name := ":update", description := "Update index (incremental)" },
   { id := "config", name := ":config", description := "Open config file" },
   { id := "stats", name := ":stats", description := "Index statistics" },
   { id := "progress", name := ":progress", description := "Show indexer progress" },
   { id := "health", name := ":health", description := "Check system health (Ollama, DB, API key)" }]

/-- An entry of the fixed mock application table. -/
structure AppEntry where
  id : String
  name : String
  desc : String
  exec : String
deriving Repr, DecidableEq

/-- The fixed mock application table. -/
def appsList : List AppEntry :=
  [{ id := "firefox", name := "Firefox", desc := "Web Browser", exec := "firefox" },
   { id := "chromium", name := "Chromium", desc := "Web Browser", exec := "chromium" },
   { id := "kitty", name := "Kitty", desc := "Terminal", exec := "kitty" },
   { id := "code", name := "VS Code", desc := "Code Editor", exec := "code" },
   { id := "nautilus", name := "Files", desc := "File Manager", exec := "nautilus" }]

/-- The app-search fallthrough at the bottom of `mockSearch`. -/
def appSearch (query : String) : List SearchResult :=
  let q := toLowerL query.data
  (appsList.filter fun a => includesL (toLowerL a.name.data) q).map fun a =>
    { id := a.id, name := a.name, description := a.desc, icon := a.id,
      category := "app", exec := a.exec }

/-- The single math result for query `query` evaluating to `v`. -/
def mathResultOf (query : String) (v : JsNum) : SearchResult :=
  { id := "math-result", name := "= " ++ v.toDisplay,
    description := query ++ " = " ++ v.toDisplay, icon := "",
    category := "math", exec := "" }

/-- The math-detection block of `mockSearch`: `some results` when it returns
early with a math result, `none` when control falls through to app search
(regex miss, evaluation error, non-number, or non-finite value). -/
def mathBranch (query : String) : Option (List SearchResult) :=
  if mathReTest query.data then
    match jsEval query with
    | some v =>
      if v.isFiniteNum then some [mathResultOf query v]
      else none
    | none => none
  else none

/-- The mock `search` command handler: prefix routing over the query plus the
per-provider mock result lists. -/
def mockSearch (query : String) : List SearchResult :=
  let qd := query.data
  if qd = [] then historyResults
  else if startsWithL ['#'] qd then
    let q := toLowerL (trimL (qd.drop 1))
    specialsList.filter fun s => q.isEmpty || includesL s.name.data q
  else if startsWithL ['?'] qd then
    let q := trimL (qd.drop 1)
    if q.isEmpty then [chatHintResult] else [chatAskOf q]
  else if startsWithL [':'] qd then
    let cmd := toLowerL (trimL (qd.drop 1))
    (settingsList.filter fun s =>
      cmd.isEmpty || includesL s.id.data cmd || includesL s.name.data cmd
        || includesL (toLowerL s.description.data) cmd).map fun s =>
      { id := s.id, name := s.name, description := s.description, icon := "",
        category := "action", exec := "" }
  else if startsWithL [' '] qd then
    let q := trimStartL qd
    if startsWithL ['*'] q then
      let contentQuery := trimL (q.drop 1)
      if contentQuery.isEmpty then [] else vectorResults contentQuery
    else if !q.isEmpty then [fileResultOf q]
    else []
  else if startsWithL ['!'] qd then
    let q := trimL (qd.drop 1)
    if q.isEmpty then [] else [onepassResultOf q]
  else if startsWithL "ssh ".data qd || qd = "ssh".data then
    let q := trimStartL (qd.drop 3)
    [sshDevboxResult].filter fun h => q.isEmpty || includesL h.name.data q
  else
    (mathBranch query).getD (appSearch query)

/-- The providers a query can be classified to. -/
inductive Provider
  | history | special | chat | settings | vector | file | onepass | ssh | math | app
deriving Repr, DecidableEq

/-- The router: the provider classification and sub-query that `mockSearch`'s
branch structure computes for a query (extracted from the same decision
chain, with the same sub-query expressions). -/
def route (query : String) : Provider × String :=
  let qd := query.data
  if qd = [] then (.history, "")
  else if startsWithL ['#'] qd then (.special, String.mk (toLowerL (trimL (qd.drop 1))))
  else if startsWithL ['?'] qd then (.chat, String.mk (trimL (qd.drop 1)))
  else if startsWithL [':'] qd then (.settings, String.mk (toLowerL (trimL (qd.drop 1))))
  else if startsWithL [' '] qd then
    let q := trimStartL qd
    if startsWithL ['*'] q then (.vector, String.mk (trimL (q.drop 1)))
    else (.file, String.mk q)
  else if startsWithL ['!'] qd then (.onepass, String.mk (trimL (qd.drop 1)))
  else if startsWithL "ssh ".data qd || qd = "ssh".data then
    (.ssh, String.mk (trimStartL (qd.drop 3)))
  else if (mathBranch query).isSome then (.math, query)
  else (.app, String.mk (toLowerL qd))

/-- Control reaches the math-detection block of `mockSearch` and the regex
matches: the query is non-empty, matches none of the `#`, `?`, `:`, leading
space, `!` and `ssh` prefixes, and contains a math character. -/
def reachesMathBlock (query : String) : Bool :=
  let qd := query.data
  !qd.isEmpty && !(startsWithL ['#'] qd) && !(startsWithL ['?'] qd)
    && !(startsWithL [':'] qd) && !(startsWithL [' '] qd) && !(startsWithL ['!'] qd)
    && !(startsWithL "ssh ".data qd || qd = "ssh".data) && mathReTest qd

/-! ### The search handler with the engine state explicit

`mockSearch`'s math block runs the raw query through the JS engine, whose
answer for a program outside the arithmetic fragment depends on mutable
engine state (clock, RNG).  `mockSearchIn` and `routeIn` are the same
functions with that state `ω` passed explicitly; `mockSearch` is the special
case in which every out-of-fragment evaluation throws. -/

/-- The math-detection block with the engine state explicit. -/
def mathBranchIn (ω : String → Option JsNum) (query : String) :
    Option (List SearchResult) :=
  if mathReTest query.data then
    match jsEvalIn ω query with
    | some v =>
      if v.isFiniteNum then some [mathResultOf query v]
      else none
    | none => none
  else none

/-- The mock `search` handler with the engine state explicit. -/
def mockSearchIn (ω : String → Option JsNum) (query : String) : List SearchResult :=
  let qd := query.data
  if qd = [] then historyResults
  else if startsWithL ['#'] qd then
    let q := toLowerL (trimL (qd.drop 1))
    specialsList.filter fun s => q.isEmpty || includesL s.name.data q
  else if startsWithL ['?'] qd then
    let q := trimL (qd.drop 1)
    if q.isEmpty then [chatHintResult] else [chatAskOf q]
  else if startsWithL [':'] qd then
    let cmd := toLowerL (trimL (qd.drop 1))
    (settingsList.filter fun s =>
      cmd.isEmpty || includesL s.id.data cmd || includesL s.name.data cmd
        || includesL (toLowerL s.description.data) cmd).map fun s =>
      { id := s.id, name := s.name, description := s.description, icon := "",
        category := "action", exec := "" }
  else if startsWithL [' '] qd then
    let q := trimStartL qd
    if startsWithL ['*'] q then
      let contentQuery := trimL (q.drop 1)
      if contentQuery.isEmpty then [] else vectorResults contentQuery
    else if !q.isEmpty then [fileResultOf q]
    else []
  else if startsWithL ['!'] qd then
    let q := trimL (qd.drop 1)
    if q.isEmpty then [] else [onepassResultOf q]
  else if startsWithL "ssh ".data qd || qd = "ssh".data then
    let q := trimStartL (qd.drop 3)
    [sshDevboxResult].filter fun h => q.isEmpty || includesL h.name.data q
  else
    (mathBranchIn ω query).getD (appSearch query)

/-- The router classification with the engine state explicit. -/
def routeIn (ω : String → Option JsNum) (query : String) : Provider × String :=
  let qd := query.data
  if qd = [] then (.history, "")
  else if startsWithL ['#'] qd then (.special, String.mk (toLowerL (trimL (qd.drop 1))))
  else if startsWithL ['?'] qd then (.chat, String.mk (trimL (qd.drop 1)))
  else if startsWithL [':'] qd then (.settings, String.mk (toLowerL (trimL (qd.drop 1))))
  else if startsWithL [' '] qd then
    let q := trimStartL qd
    if startsWithL ['*'] q then (.vector, String.mk (trimL (q.drop 1)))
    else (.file, String.mk q)
  else if startsWithL ['!'] qd then (.onepass, String.mk (trimL (qd.drop 1)))
  else if startsWithL "ssh ".data qd || qd = "ssh".data then
    (.ssh, String.mk (trimStartL (qd.drop 3)))
  else if (mathBranchIn ω query).isSome then (.math, query)
  else (.app, String.mk (toLowerL qd))

/-! ## Modifier keys (`src/types.ts`) -/

/-- The modifier classification returned by `parseModifier`. -/
inductive Modifier
  | mnone | shift | ctrl | alt | altgr | shift_ctrl
deriving Repr, DecidableEq

/-- The four keyboard flag booleans handed to `parseModifier`. -/
structure ModFlags where
  shift : Bool
  ctrl : Bool
  alt : Bool
  altgr : Bool
deriving Repr, DecidableEq

/-- `parseModifier` from `src/types.ts`. -/
def parseModifier (flags : ModFlags) : Modifier :=
  if flags.altgr then .altgr
  else if flags.shift && flags.ctrl then .shift_ctrl
  else if flags.shift then .shift
  else if flags.ctrl then .ctrl
  else if flags.alt then .alt
  else .mnone

/-! ## The launcher component's dispatch and navigation logic

The React component state that the verified claims touch is modelled as an
explicit record, and each handler as a state transition that also returns the
list of backend commands it invokes, in invocation order.  Awaited backend
calls are resolved through a `BackendOutcome` record (one slot per command a
single dispatch can issue), standing for the value or error each `await`
settles to; `try`/`catch` blocks become matches on those slots.  Timer
handles, the visibility epoch and the mouse-hover machine are outside the
verified claims and are not carried in the record. -/

/-- The secondary-input mode state (`secondaryMode` in the component). -/
structure SecondaryModeState where
  active : Bool
  result : Option SearchResult
  previousQuery : String
deriving Repr, DecidableEq

/-- The component state the claims are about. -/
structure AppState where
  query : String
  results : List SearchResult
  selectedIndex : Int
  notification : String
  chatAnswer : String
  chatLoading : Bool
  secondaryMode : SecondaryModeState
  secondaryInput : String
deriving Repr, DecidableEq

/-- A backend command invoked by the component, with its arguments. -/
inductive Invocation
  | search (query : String)
  | hideWindow
  | chatAsk (query : String)
  | runSetting (action : String)
  | recordLaunch (id name ex icon description : String)
  | executeCmd (result : SearchResult) (modifier : Modifier) (secondaryInput : Option String)
deriving Repr, DecidableEq

/-- Is an invocation a `record_launch` upsert? -/
def Invocation.isRecordLaunch : Invocation → Bool
  | .recordLaunch _ _ _ _ _ => true
  | _ => false

/-- The settled value of each backend call a single dispatch can await. -/
structure BackendOutcome where
  chatAsk : Except String String
  runSetting : Except String String
  recordLaunch : Except String Unit
  executeCmd : Except String Unit
deriving Repr

/-- JS `results[selectedIndex]` (out-of-range and negative indices give
`undefined`). -/
def listGetInt (l : List SearchResult) (i : Int) : Option SearchResult :=
  if h : 0 ≤ i ∧ i.toNat < l.length then some (l.get ⟨i.toNat, h.2⟩) else none

/-- The item `executeAction` operates on: the stored result in secondary
mode, else the click override, else the keyboard selection. -/
def resolveItem (st : AppState) (override : Option SearchResult) : Option SearchResult :=
  if st.secondaryMode.active then st.secondaryMode.result
  else
    match override with
    | some r => some r
    | none => listGetInt st.results st.selectedIndex

/-- `executeAction` of the launcher component: the two-phase secondary-input
protocol, the per-category dispatch (chat, settings action, everything else),
and the `record_launch` upsert for non-ephemeral categories.  Returns the new
state and the backend commands invoked, in order. -/
def executeAction (st : AppState) (e : Option ModFlags) (override : Option SearchResult)
    (oc : BackendOutcome) : AppState × List Invocation :=
  match resolveItem st override with
  | none => (st, [])
  | some item =>
    if item.input_spec.isSome && !st.secondaryMode.active then
      ({ st with secondaryMode := ⟨true, some item, st.query⟩, query := "",
                 secondaryInput := "" }, [])
    else
      let modifier := match e with
        | some flags => parseModifier flags
        | none => Modifier.mnone
      let currentSecondaryInput : Option String :=
        if st.secondaryMode.active then some st.secondaryInput else none
      let st1 :=
        if st.secondaryMode.active then
          { st with secondaryMode := ⟨false, none, ""⟩, secondaryInput := "" }
        else st
      if item.category = "chat" then
        let st2 := { st1 with chatLoading := true, chatAnswer := "" }
        let st3 := match oc.chatAsk with
          | .ok answer => { st2 with chatAnswer := answer, chatLoading := false }
          | .error msg => { st2 with chatAnswer := "Error: " ++ msg, chatLoading := false }
        (st3, [.chatAsk st.query])
      else if item.category = "action" then
        let st2 := match oc.runSetting with
          | .ok msg => { st1 with notification := msg }
          | .error msg => { st1 with notification := "Error: " ++ msg }
        (st2, [.runSetting item.id])
      else
        let recordInvs : List Invocation :=
          if item.category = "math" || item.category = "info" then []
          else [.recordLaunch item.id item.name item.exec item.icon item.description]
        let st2 := match oc.executeCmd with
          | .ok _ => st1
          | .error msg => { st1 with notification := "✗ Action failed: " ++ msg }
        (st2, recordInvs ++ [.executeCmd item modifier currentSecondaryInput])

/-- `doSearch`: invoke the backend `search` and store its results, resetting
the selection (the mock backend's `search` handler is `mockSearch` and never
throws). -/
def doSearch (st : AppState) (q : String) : AppState :=
  { st with results := mockSearch q, selectedIndex := 0 }

/-- The keys `handleKeyDown` distinguishes. -/
inductive Key
  | arrowDown | arrowUp | enter | escape | other
deriving Repr, DecidableEq

/-- `handleKeyDown` of the launcher component. -/
def handleKeyDown (st : AppState) (k : Key) (e : ModFlags) (oc : BackendOutcome) :
    AppState × List Invocation :=
  match k with
  | .arrowDown =>
    if !st.secondaryMode.active then
      ({ st with selectedIndex := min (st.selectedIndex + 1) (st.results.length - 1) }, [])
    else (st, [])
  | .arrowUp =>
    if !st.secondaryMode.active then
      ({ st with selectedIndex := max (st.selectedIndex - 1) 0 }, [])
    else (st, [])
  | .enter => executeAction st (some e) none oc
  | .escape =>
    if st.secondaryMode.active then
      let restoredQuery := st.secondaryMode.previousQuery
      (doSearch { st with secondaryMode := ⟨false, none, ""⟩, secondaryInput := "",
                          query := restoredQuery } restoredQuery,
       [.search restoredQuery])
    else (st, [.hideWindow])
  | .other => (st, [])

/-- The `visibilitychange` handler when the window becomes hidden. -/
def onVisibilityHidden (st : AppState) : AppState :=
  { st with query := "", selectedIndex := 0, chatAnswer := "", chatLoading := false,
            secondaryMode := ⟨false, none, ""⟩, secondaryInput := "" }

/-! ## The `OutputView` line buffer -/

/-- The stream a buffered output line came from. -/
inductive LineStream
  | stdout | stderr
deriving Repr, DecidableEq

/-- One polled output line. -/
structure BufferedLine where
  stream : LineStream
  text : String
deriving Repr, DecidableEq

/-- `MAX_LINES` of `OutputView.tsx`. -/
def MAX_LINES : Nat := 10000

/-- `Array.prototype.slice(-n)`: the last `n` elements. -/
def lastN (n : Nat) (l : List BufferedLine) : List BufferedLine :=
  l.drop (l.length - n)

/-- One poll tick's buffer update: append the snapshot's lines when there are
any, keeping only the most recent `MAX_LINES` when the cap is exceeded. -/
def appendSnapshot (prev snap : List BufferedLine) : List BufferedLine :=
  if snap.length > 0 then
    let next := prev ++ snap
    if next.length > MAX_LINES then lastN MAX_LINES next else next
  else prev

/-! ## Concrete fixtures used by witnesses and counterexamples -/

/-- Flags with no modifier pressed. -/
def flags0 : ModFlags := ⟨false, false, false, false⟩

/-- Backend outcomes where every awaited call succeeds. -/
def oc0 : BackendOutcome := ⟨.ok "mock answer", .ok "done", .ok (), .ok ()⟩

/-- Backend outcomes where every awaited call fails. -/
def ocErr : BackendOutcome := ⟨.error "boom", .error "boom", .error "boom", .error "boom"⟩

/-- A component state with empty fields. -/
def baseState : AppState :=
  { query := "", results := [], selectedIndex := 0, notification := "",
    chatAnswer := "", chatLoading := false, secondaryMode := ⟨false, none, ""⟩,
    secondaryInput := "" }

/-- The chat placeholder result produced by `mockSearch "?hi"`. -/
def chatAskResult : SearchResult :=
  { id := "chat-ask", name := "Ask: hi", description := "Press Enter to get an AI answer",
    icon := "", category := "chat", exec := "" }

/-- A file result as produced by the file provider. -/
def fileResult : SearchResult :=
  { id := "/home/user/Documents/notes.txt", name := "notes.txt",
    description := "/home/user/Documents", icon := "", category := "file",
    exec := "xdg-open /home/user/Documents/notes.txt" }

/-- A JS engine state in which evaluating `Date.now()%2` observed an even
clock millisecond: the eval returns `0`.  Every other out-of-fragment
program throws in this state. -/
def engineEvenClock : String → Option JsNum := fun s =>
  if s = "Date.now()%2" then some (JsNum.num 0 1) else none

/-- A JS engine state, later in the same session, in which evaluating
`Date.now()%2` observed an odd clock millisecond: the eval returns `1`. -/
def engineOddClock : String → Option JsNum := fun s =>
  if s = "Date.now()%2" then some (JsNum.num 1 1) else none

/-- A special command that requires a secondary input. -/
def specialInputResult : SearchResult :=
  { id := "special-ask", name := "ask", description := "Run with an argument",
    icon := "", category := "special", exec := "run",
    input_spec := some ⟨"Type the argument", "run ARG"⟩ }

/-! ## Helper lemmas -/

theorem lastN_of_length_le {n : Nat} {l : List BufferedLine} (h : l.length ≤ n) :
    lastN n l = l := by
  unfold lastN
  rw [Nat.sub_eq_zero_of_le h, List.drop_zero]

theorem length_lastN (n : Nat) (l : List BufferedLine) :
    (lastN n l).length = l.length - (l.length - n) := by
  unfold lastN
  rw [List.length_drop]

/-- The last `m` elements of an append depend only on the right part when it
is long enough. -/
theorem lastN_append_of_le {m : Nat} (T B : List BufferedLine) (h : m ≤ B.length) :
    lastN m (T ++ B) = lastN m B := by
  unfold lastN
  rw [List.length_append]
  have harith : T.length + B.length - m = T.length + (B.length - m) := by omega
  rw [harith, List.drop_append]

theorem lastN_append_lastN (m : Nat) (J S : List BufferedLine) :
    lastN m (lastN m J ++ S) = lastN m (J ++ S) := by
  rcases le_or_lt J.length m with hle | hlt
  · rw [lastN_of_length_le hle]
  · have hlen : (lastN m J).length = m := by
      rw [length_lastN]; omega
    have hJ : J.take (J.length - m) ++ lastN m J = J := List.take_append_drop _ J
    conv_rhs => rw [← hJ, List.append_assoc]
    rw [lastN_append_of_le (J.take (J.length - m)) (lastN m J ++ S)
      (by rw [List.length_append, hlen]; omega)]

/-- One buffer update step, starting from a buffer that is the tail of the
full history `J`, yields the tail of the extended history. -/
theorem appendSnapshot_lastN (J S : List BufferedLine) :
    appendSnapshot (lastN MAX_LINES J) S = lastN MAX_LINES (J ++ S) := by
  rcases S with _ | ⟨x, xs⟩
  · rw [List.append_nil]
    unfold appendSnapshot
    rw [if_neg (by simp)]
  · have hpos : (x :: xs).length > 0 := Nat.succ_pos _
    unfold appendSnapshot
    rw [if_pos hpos]
    have hlen : (lastN MAX_LINES J).length = J.length - (J.length - MAX_LINES) :=
      length_lastN _ _
    show (if (lastN MAX_LINES J ++ x :: xs).length > MAX_LINES then
        lastN MAX_LINES (lastN MAX_LINES J ++ x :: xs)
      else lastN MAX_LINES J ++ x :: xs) = lastN MAX_LINES (J ++ x :: xs)
    split
    · exact lastN_append_lastN _ _ _
    · rename_i hgt
      rw [List.length_append, hlen] at hgt
      rcases le_or_lt J.length MAX_LINES with hle | hlt
      · rw [lastN_of_length_le hle]
        rw [lastN_of_length_le]
        rw [List.length_append]; omega
      · exfalso
        simp only [List.length_cons] at hgt
        omega

/-- The buffer after any sequence of polled snapshots, starting from the tail
of history `J`, is the last `MAX_LINES` lines of the full history. -/
theorem foldl_appendSnapshot (snaps : List (List BufferedLine)) :
    ∀ J : List BufferedLine,
      snaps.foldl appendSnapshot (lastN MAX_LINES J) = lastN MAX_LINES (J ++ snaps.flatten) := by
  induction snaps with
  | nil => intro J; rw [List.foldl_nil, List.flatten_nil, List.append_nil]
  | cons S ss ih =>
    intro J
    simp only [List.foldl_cons, List.flatten_cons]
    rw [appendSnapshot_lastN, ih (J ++ S), List.append_assoc]

/-! ## The claims -/

/-- C10: for any sequence of appended snapshots the OutputView line buffer
never exceeds 10,000 entries, and it always holds exactly the most recent
lines of everything appended (so when the cap would be exceeded, the oldest
lines are dropped and the most recent 10,000 are retained). -/
theorem C10_output_buffer_cap (snaps : List (List BufferedLine)) :
    (snaps.foldl appendSnapshot []).length ≤ MAX_LINES ∧
      snaps.foldl appendSnapshot [] = lastN MAX_LINES snaps.flatten := by
  have h := foldl_appendSnapshot snaps []
  rw [show lastN MAX_LINES ([] : List BufferedLine) = [] from rfl,
      List.nil_append] at h
  refine ⟨?_, h⟩
  rw [h, length_lastN]
  omega

/-- C8: `parseModifier` is total and deterministic over all 16 flag
combinations with fixed precedence — `altgr` wins regardless of the other
flags, then `shift_ctrl` when both shift and ctrl are set, then `shift`,
then `ctrl`, then `alt`, and `none` only when no flag is set. -/
theorem C8_parseModifier_precedence (s c a g : Bool) :
    (parseModifier ⟨s, c, a, true⟩ = .altgr) ∧
    (parseModifier ⟨true, true, a, false⟩ = .shift_ctrl) ∧
    (parseModifier ⟨true, false, a, false⟩ = .shift) ∧
    (parseModifier ⟨false, true, a, false⟩ = .ctrl) ∧
    (parseModifier ⟨false, false, true, false⟩ = .alt) ∧
    (parseModifier ⟨false, false, false, false⟩ = .mnone) ∧
    (parseModifier ⟨s, c, a, g⟩ = .mnone →
      s = false ∧ c = false ∧ a = false ∧ g = false) := by
  revert s c a g
  decide

/-- C8 witness at a concrete flag combination. -/
theorem C8_parseModifier_precedence_witness :
    parseModifier ⟨true, true, false, true⟩ = .altgr :=
  (C8_parseModifier_precedence true true false true).1

/-- An arrow-key step keeps the selection inside the result list and touches
nothing else the navigation invariant depends on. -/
theorem nav_invariant (ks : List Key) :
    ∀ (st : AppState) (flags : ModFlags) (oc : BackendOutcome),
      st.secondaryMode.active = false →
      st.results ≠ [] →
      0 ≤ st.selectedIndex →
      st.selectedIndex ≤ st.results.length - 1 →
      (∀ k ∈ ks, k = Key.arrowDown ∨ k = Key.arrowUp) →
      let st' := ks.foldl (fun s k => (handleKeyDown s k flags oc).1) st
      st'.results = st.results ∧ 0 ≤ st'.selectedIndex ∧
        st'.selectedIndex ≤ st.results.length - 1 := by
  induction ks with
  | nil =>
    intro st flags oc _ _ h0 h1 _
    exact ⟨rfl, h0, h1⟩
  | cons k ks ih =>
    intro st flags oc hact hne h0 h1 hks
    have hk := hks k (List.mem_cons_self k ks)
    have hlen : 1 ≤ st.results.length := by
      cases h : st.results with
      | nil => exact absurd h hne
      | cons x xs => simp [h]
    rcases hk with hk | hk <;> subst hk
    · have hstep : (handleKeyDown st .arrowDown flags oc).1 =
          { st with selectedIndex := min (st.selectedIndex + 1) (st.results.length - 1) } := by
        simp [handleKeyDown, hact]
      simp only [List.foldl_cons, hstep]
      have := ih { st with selectedIndex := min (st.selectedIndex + 1) (st.results.length - 1) }
        flags oc hact hne
        (by dsimp only; omega) (by dsimp only; omega)
        (fun k hm => hks k (List.mem_cons_of_mem _ hm))
      exact this
    · have hstep : (handleKeyDown st .arrowUp flags oc).1 =
          { st with selectedIndex := max (st.selectedIndex - 1) 0 } := by
        simp [handleKeyDown, hact]
      simp only [List.foldl_cons, hstep]
      have := ih { st with selectedIndex := max (st.selectedIndex - 1) 0 }
        flags oc hact hne
        (by dsimp only; omega) (by dsimp only; omega)
        (fun k hm => hks k (List.mem_cons_of_mem _ hm))
      exact this

/-- C9: for a non-empty result list, any sequence of arrow-key presses
starting from selection 0 keeps `0 ≤ selectedIndex ≤ results.length - 1`:
ArrowDown clamps at the last index and ArrowUp clamps at 0. -/
theorem C9_navigation_bounds (st : AppState) (flags : ModFlags) (oc : BackendOutcome)
    (ks : List Key)
    (hact : st.secondaryMode.active = false)
    (hne : st.results ≠ [])
    (hsel : st.selectedIndex = 0)
    (hks : ∀ k ∈ ks, k = Key.arrowDown ∨ k = Key.arrowUp) :
    0 ≤ (ks.foldl (fun s k => (handleKeyDown s k flags oc).1) st).selectedIndex ∧
      (ks.foldl (fun s k => (handleKeyDown s k flags oc).1) st).selectedIndex
        ≤ st.results.length - 1 := by
  have h := nav_invariant ks st flags oc hact hne (by omega) (by
    have : 1 ≤ st.results.length := by
      cases h : st.results with
      | nil => exact absurd h hne
      | cons x xs => simp [h]
    omega) hks
  exact ⟨h.2.1, h.2.2⟩

/-- C9 witness: three ArrowDown and one ArrowUp over the two mock history
results stay inside the bounds. -/
theorem C9_navigation_bounds_witness :
    0 ≤ (([Key.arrowDown, Key.arrowDown, Key.arrowDown, Key.arrowUp]).foldl
          (fun s k => (handleKeyDown s k flags0 oc0).1)
          { baseState with results := historyResults }).selectedIndex ∧
      (([Key.arrowDown, Key.arrowDown, Key.arrowDown, Key.arrowUp]).foldl
          (fun s k => (handleKeyDown s k flags0 oc0).1)
          { baseState with results := historyResults }).selectedIndex
        ≤ ({ baseState with results := historyResults } : AppState).results.length - 1 :=
  C9_navigation_bounds { baseState with results := historyResults } flags0 oc0
    [Key.arrowDown, Key.arrowDown, Key.arrowDown, Key.arrowUp]
    rfl (by decide) rfl (by decide)

/-- In the execution phase (no pending secondary-input entry), `executeAction`
issues exactly the invocations of the per-category dispatch table and always
leaves secondary-input mode cleared when it was active. -/
theorem executeAction_exec_spec (st : AppState) (e : Option ModFlags)
    (override : Option SearchResult) (oc : BackendOutcome) (item : SearchResult)
    (hres : resolveItem st override = some item)
    (hphase : (item.input_spec.isSome && !st.secondaryMode.active) = false) :
    (executeAction st e override oc).2 =
      (if item.category = "chat" then [Invocation.chatAsk st.query]
       else if item.category = "action" then [Invocation.runSetting item.id]
       else
         (if item.category = "math" || item.category = "info" then []
          else [Invocation.recordLaunch item.id item.name item.exec item.icon
                  item.description])
           ++ [Invocation.executeCmd item
                (match e with | some f => parseModifier f | none => .mnone)
                (if st.secondaryMode.active then some st.secondaryInput else none)]) ∧
    (executeAction st e override oc).1.secondaryMode =
      (if st.secondaryMode.active then ⟨false, none, ""⟩ else st.secondaryMode) ∧
    (executeAction st e override oc).1.secondaryInput =
      (if st.secondaryMode.active then "" else st.secondaryInput) := by
  unfold executeAction
  rw [hres]
  simp only [hphase, Bool.false_eq_true, if_false]
  refine ⟨?_, ?_, ?_⟩ <;> repeat' (first | rfl | split)

/-- A dispatch of a result with an `input_spec`, outside secondary-input
mode, executes nothing: it only stores the pending result and the current
query and enters secondary-input mode. -/
theorem executeAction_enter_secondary (st : AppState) (e : Option ModFlags)
    (override : Option SearchResult) (oc : BackendOutcome) (item : SearchResult)
    (hres : resolveItem st override = some item)
    (hspec : item.input_spec.isSome = true)
    (hact : st.secondaryMode.active = false) :
    executeAction st e override oc =
      ({ st with secondaryMode := ⟨true, some item, st.query⟩, query := "",
                 secondaryInput := "" }, []) := by
  unfold executeAction
  rw [hres]
  simp only [hspec, hact, Bool.not_false, Bool.and_true, if_true, reduceIte]

/-- C1 counterexample: dispatching the selected chat result "Ask: hi" is a
successful dispatch (the AI call is issued and succeeds) whose category is
neither `math` nor `info`, yet it issues zero `record_launch` upserts — so
"dispatch on a result of any other category triggers exactly one
record_launch upsert" fails on category `chat`. -/
theorem C1_chat_dispatch_records_nothing :
    resolveItem { baseState with query := "?hi", results := [chatAskResult] } none
        = some chatAskResult ∧
      chatAskResult.category ≠ "math" ∧ chatAskResult.category ≠ "info" ∧
      (executeAction { baseState with query := "?hi", results := [chatAskResult] }
          (some flags0) none oc0).2.countP Invocation.isRecordLaunch = 0 := by
  refine ⟨rfl, by decide, by decide, ?_⟩
  rfl

/-- C1 (amended): a dispatch that reaches execution issues no `record_launch`
when the category is `math`, `info`, `chat` or `action` (the latter two
return from their own dispatch paths before the history step); for every
other category it issues exactly one `record_launch`, immediately before the
`execute_action` command. -/
theorem C1_history_recording (st : AppState) (e : Option ModFlags)
    (override : Option SearchResult) (oc : BackendOutcome) (item : SearchResult)
    (hres : resolveItem st override = some item)
    (hphase : (item.input_spec.isSome && !st.secondaryMode.active) = false) :
    ((item.category = "math" ∨ item.category = "info" ∨ item.category = "chat"
        ∨ item.category = "action") →
      (executeAction st e override oc).2.countP Invocation.isRecordLaunch = 0) ∧
    (item.category ≠ "math" → item.category ≠ "info" → item.category ≠ "chat" →
      item.category ≠ "action" →
      (executeAction st e override oc).2 =
        [Invocation.recordLaunch item.id item.name item.exec item.icon item.description,
         Invocation.executeCmd item
           (match e with | some f => parseModifier f | none => Modifier.mnone)
           (if st.secondaryMode.active then some st.secondaryInput else none)]) := by
  have hinv := (executeAction_exec_spec st e override oc item hres hphase).1
  constructor
  · intro hcat
    rw [hinv]
    rcases hcat with hc | hc | hc | hc <;>
      simp [hc, Invocation.isRecordLaunch, List.countP_cons]
  · intro hm hi hc ha
    rw [hinv]
    rw [if_neg hc, if_neg ha, if_neg ?hbool]
    case hbool =>
      simp [hm, hi]
    rfl

/-- C1 witness: dispatching a selected file result issues exactly one
`record_launch`, before the `execute_action` command. -/
theorem C1_history_recording_witness :
    (executeAction { baseState with query := " notes", results := [fileResult] }
        (some flags0) none oc0).2 =
      [Invocation.recordLaunch fileResult.id fileResult.name fileResult.exec
         fileResult.icon fileResult.description,
       Invocation.executeCmd fileResult Modifier.mnone none] :=
  (C1_history_recording { baseState with query := " notes", results := [fileResult] }
      (some flags0) none oc0 fileResult rfl rfl).2
    (by decide) (by decide) (by decide) (by decide)

/-- C2: a result carrying an `input_spec`, dispatched outside secondary-input
mode, never executes (no backend command is issued) and always moves the
session into secondary-input mode storing the pending result and the current
query; a dispatch issued while secondary-input mode is active with that
pending result always executes (a backend command is issued) and always
leaves secondary-input mode, whatever the secondary input and whether the
backend calls succeed or fail. -/
theorem C2_secondary_input_two_phase (st st2 : AppState) (e e2 : Option ModFlags)
    (override override2 : Option SearchResult) (oc oc2 : BackendOutcome)
    (item : SearchResult)
    (hact : st.secondaryMode.active = false)
    (hres : resolveItem st override = some item)
    (hspec : item.input_spec.isSome = true)
    (hact2 : st2.secondaryMode.active = true)
    (hpend : st2.secondaryMode.result = some item) :
    (executeAction st e override oc).2 = [] ∧
    (executeAction st e override oc).1.secondaryMode = ⟨true, some item, st.query⟩ ∧
    (executeAction st e override oc).1.query = "" ∧
    (executeAction st e override oc).1.secondaryInput = "" ∧
    (executeAction st2 e2 override2 oc2).2 ≠ [] ∧
    (executeAction st2 e2 override2 oc2).1.secondaryMode.active = false ∧
    (executeAction st2 e2 override2 oc2).1.secondaryMode.result = none ∧
    (executeAction st2 e2 override2 oc2).1.secondaryInput = "" := by
  have h1 := executeAction_enter_secondary st e override oc item hres hspec hact
  have hres2 : resolveItem st2 override2 = some item := by
    unfold resolveItem
    rw [if_pos hact2, hpend]
  have hphase2 : (item.input_spec.isSome && !st2.secondaryMode.active) = false := by
    rw [hact2]
    simp
  have h2 := executeAction_exec_spec st2 e2 override2 oc2 item hres2 hphase2
  rw [hact2] at h2
  simp only [if_true, reduceIte] at h2
  refine ⟨by rw [h1], by rw [h1], by rw [h1], by rw [h1], ?_, ?_, ?_, ?_⟩
  · rw [h2.1]
    split
    · simp
    · split
      · simp
      · simp
  · rw [h2.2.1]
  · rw [h2.2.1]
  · exact h2.2.2

/-- C2 witness: the two phases at a concrete special command that takes a
secondary input. -/
theorem C2_secondary_input_two_phase_witness :
    (executeAction { baseState with query := "#ask", results := [specialInputResult] }
        (some flags0) none oc0).2 = [] ∧
    (executeAction { baseState with query := "#ask", results := [specialInputResult] }
        (some flags0) none oc0).1.secondaryMode
      = ⟨true, some specialInputResult, "#ask"⟩ ∧
    (executeAction { baseState with query := "#ask", results := [specialInputResult] }
        (some flags0) none oc0).1.query = "" ∧
    (executeAction { baseState with query := "#ask", results := [specialInputResult] }
        (some flags0) none oc0).1.secondaryInput = "" ∧
    (executeAction { baseState with
        secondaryMode := ⟨true, some specialInputResult, "#ask"⟩,
        secondaryInput := "typed text" } (some flags0) none ocErr).2 ≠ [] ∧
    (executeAction { baseState with
        secondaryMode := ⟨true, some specialInputResult, "#ask"⟩,
        secondaryInput := "typed text" } (some flags0) none ocErr).1.secondaryMode.active
      = false ∧
    (executeAction { baseState with
        secondaryMode := ⟨true, some specialInputResult, "#ask"⟩,
        secondaryInput := "typed text" } (some flags0) none ocErr).1.secondaryMode.result
      = none ∧
    (executeAction { baseState with
        secondaryMode := ⟨true, some specialInputResult, "#ask"⟩,
        secondaryInput := "typed text" } (some flags0) none ocErr).1.secondaryInput = "" :=
  C2_secondary_input_two_phase
    { baseState with query := "#ask", results := [specialInputResult] }
    ({ baseState with
        secondaryMode := ⟨true, some specialInputResult, "#ask"⟩,
        secondaryInput := "typed text" })
    (some flags0) (some flags0) none none oc0 ocErr specialInputResult
    rfl rfl rfl rfl rfl

/-- C7: `SecondaryModeState` is always cleared (inactive, no pending result,
secondary input emptied) on completion of a dispatch issued in secondary
mode, on cancellation via Escape, and on window-hide; on Escape the query
saved when secondary mode was entered is restored and re-searched. -/
theorem C7_secondary_mode_reset (st : AppState) (e : Option ModFlags)
    (override : Option SearchResult) (oc : BackendOutcome) (flags : ModFlags)
    (item : SearchResult) :
    (st.secondaryMode.active = true → st.secondaryMode.result = some item →
      (executeAction st e override oc).1.secondaryMode = ⟨false, none, ""⟩ ∧
      (executeAction st e override oc).1.secondaryInput = "") ∧
    (st.secondaryMode.active = true →
      (handleKeyDown st .escape flags oc).1.secondaryMode = ⟨false, none, ""⟩ ∧
      (handleKeyDown st .escape flags oc).1.secondaryInput = "" ∧
      (handleKeyDown st .escape flags oc).1.query = st.secondaryMode.previousQuery ∧
      (handleKeyDown st .escape flags oc).1.results
        = mockSearch st.secondaryMode.previousQuery ∧
      (handleKeyDown st .escape flags oc).2
        = [.search st.secondaryMode.previousQuery]) ∧
    ((onVisibilityHidden st).secondaryMode = ⟨false, none, ""⟩ ∧
      (onVisibilityHidden st).secondaryInput = "") := by
  refine ⟨?_, ?_, rfl, rfl⟩
  · intro hact hpend
    have hres2 : resolveItem st override = some item := by
      unfold resolveItem
      rw [if_pos hact, hpend]
    have hphase2 : (item.input_spec.isSome && !st.secondaryMode.active) = false := by
      rw [hact]
      simp
    have h2 := executeAction_exec_spec st e override oc item hres2 hphase2
    rw [hact] at h2
    simp only [if_true, reduceIte] at h2
    exact ⟨h2.2.1, h2.2.2⟩
  · intro hact
    unfold handleKeyDown
    rw [if_pos hact]
    exact ⟨rfl, rfl, rfl, rfl, rfl⟩

/-- C7 witness: the three clearing paths at a concrete secondary-mode
state. -/
theorem C7_secondary_mode_reset_witness :
    ((executeAction { baseState with
        secondaryMode := ⟨true, some specialInputResult, "#ask"⟩ }
        (some flags0) none ocErr).1.secondaryMode = ⟨false, none, ""⟩ ∧
      (executeAction { baseState with
        secondaryMode := ⟨true, some specialInputResult, "#ask"⟩ }
        (some flags0) none ocErr).1.secondaryInput = "") ∧
    ((handleKeyDown { baseState with
        secondaryMode := ⟨true, some specialInputResult, "#ask"⟩ }
        .escape flags0 ocErr).1.secondaryMode = ⟨false, none, ""⟩ ∧
      (handleKeyDown { baseState with
        secondaryMode := ⟨true, some specialInputResult, "#ask"⟩ }
        .escape flags0 ocErr).1.secondaryInput = "" ∧
      (handleKeyDown { baseState with
        secondaryMode := ⟨true, some specialInputResult, "#ask"⟩ }
        .escape flags0 ocErr).1.query
        = ({ baseState with
            secondaryMode :=
              ⟨true, some specialInputResult, "#ask"⟩ } : AppState).secondaryMode.previousQuery ∧
      (handleKeyDown { baseState with
        secondaryMode := ⟨true, some specialInputResult, "#ask"⟩ }
        .escape flags0 ocErr).1.results
        = mockSearch ({ baseState with
            secondaryMode :=
              ⟨true, some specialInputResult, "#ask"⟩ } : AppState).secondaryMode.previousQuery ∧
      (handleKeyDown { baseState with
        secondaryMode := ⟨true, some specialInputResult, "#ask"⟩ }
        .escape flags0 ocErr).2
        = [.search ({ baseState with
            secondaryMode :=
              ⟨true, some specialInputResult, "#ask"⟩ } : AppState).secondaryMode.previousQuery]) :=
  ⟨(C7_secondary_mode_reset { baseState with
      secondaryMode := ⟨true, some specialInputResult, "#ask"⟩ }
      (some flags0) none ocErr flags0 specialInputResult).1 rfl rfl,
   (C7_secondary_mode_reset { baseState with
      secondaryMode := ⟨true, some specialInputResult, "#ask"⟩ }
      (some flags0) none ocErr flags0 specialInputResult).2.1 rfl⟩

/-- A matched prefix is an initial segment of the list. -/
theorem startsWith_shape : ∀ {pre l : List Char}, startsWithL pre l = true →
    ∃ t, l = pre ++ t := by
  intro pre
  induction pre with
  | nil => intro l _; exact ⟨l, rfl⟩
  | cons p ps ih =>
    intro l h
    cases l with
    | nil =>
      rw [show startsWithL (p :: ps) ([] : List Char) = false from rfl] at h
      exact absurd h (by decide)
    | cons x xs =>
      rw [show startsWithL (p :: ps) (x :: xs) = ((p == x) && startsWithL ps xs)
        from rfl, Bool.and_eq_true, beq_iff_eq] at h
      obtain ⟨t, ht⟩ := ih h.2
      exact ⟨t, by rw [ht, h.1, List.cons_append]⟩

/-- For every query that does not consult the engine-state-dependent part of
the JS eval — it never reaches the math block, or it is a pure arithmetic
expression — search and classification agree with the pure model in every
engine state. -/
theorem searchIn_eq_pure (ω : String → Option JsNum) (q : String)
    (h : reachesMathBlock q = false ∨ (jsEval q).isSome = true) :
    mockSearchIn ω q = mockSearch q ∧ routeIn ω q = route q := by
  rcases h with h | h
  · simp only [reachesMathBlock, Bool.and_eq_false_iff, Bool.not_eq_false'] at h
    rcases h with ((((((h | h) | h) | h) | h) | h) | h) | h
    · obtain ⟨l⟩ := q
      rw [List.isEmpty_iff] at h
      have hl : l = [] := h
      subst hl
      exact ⟨rfl, rfl⟩
    · obtain ⟨l⟩ := q
      obtain ⟨t, ht⟩ := startsWith_shape h
      have hl : l = '#' :: t := ht
      subst hl
      exact ⟨rfl, rfl⟩
    · obtain ⟨l⟩ := q
      obtain ⟨t, ht⟩ := startsWith_shape h
      have hl : l = '?' :: t := ht
      subst hl
      exact ⟨rfl, rfl⟩
    · obtain ⟨l⟩ := q
      obtain ⟨t, ht⟩ := startsWith_shape h
      have hl : l = ':' :: t := ht
      subst hl
      exact ⟨rfl, rfl⟩
    · obtain ⟨l⟩ := q
      obtain ⟨t, ht⟩ := startsWith_shape h
      have hl : l = ' ' :: t := ht
      subst hl
      exact ⟨rfl, rfl⟩
    · obtain ⟨l⟩ := q
      obtain ⟨t, ht⟩ := startsWith_shape h
      have hl : l = '!' :: t := ht
      subst hl
      exact ⟨rfl, rfl⟩
    · rw [Bool.or_eq_true] at h
      rcases h with hp | he
      · obtain ⟨l⟩ := q
        obtain ⟨t, ht⟩ := startsWith_shape hp
        have hl : l = 's' :: 's' :: 'h' :: ' ' :: t := ht
        subst hl
        exact ⟨rfl, rfl⟩
      · obtain ⟨l⟩ := q
        have hl : l = ['s', 's', 'h'] := of_decide_eq_true he
        subst hl
        exact ⟨rfl, rfl⟩
    · have h1 : mathBranchIn ω q = none := by
        unfold mathBranchIn
        rw [if_neg (by rw [h]; exact Bool.false_ne_true)]
      have h2 : mathBranch q = none := by
        unfold mathBranch
        rw [if_neg (by rw [h]; exact Bool.false_ne_true)]
      constructor
      · unfold mockSearchIn mockSearch
        rw [h1, h2]
      · unfold routeIn route
        rw [h1, h2]
  · obtain ⟨v, hv⟩ := Option.isSome_iff_exists.mp h
    have hev : jsEvalIn ω q = jsEval q := by
      unfold jsEvalIn
      rw [hv]
    have hmb : mathBranchIn ω q = mathBranch q := by
      unfold mathBranchIn mathBranch
      rw [hev]
    constructor
    · unfold mockSearchIn mockSearch
      rw [hmb]
    · unfold routeIn route
      rw [hmb]

/-- C3 counterexample: search is not a stateless function of the query
alone.  The math block hands the raw query to the JS engine, so the query
`Date.now()%2` (which matches `MATH_RE` via `(`, `)` and `%`) evaluates
against the engine's clock: a call in a state that observed an even
millisecond returns the single result `= 0`, a later call in a state that
observed an odd millisecond returns `= 1` — two calls with the same query
and different result lists. -/
theorem C3_eval_not_stateless :
    mockSearchIn engineEvenClock "Date.now()%2"
        = [mathResultOf "Date.now()%2" (JsNum.num 0 1)] ∧
      mockSearchIn engineOddClock "Date.now()%2"
        = [mathResultOf "Date.now()%2" (JsNum.num 1 1)] ∧
      mockSearchIn engineEvenClock "Date.now()%2"
        ≠ mockSearchIn engineOddClock "Date.now()%2" := by
  refine ⟨rfl, rfl, ?_⟩
  decide

/-- C3 (amended): classification and search are deterministic in the query
except through the math block's JS eval of the raw query: for every query
that never reaches the math-detection block, and for every query in the
arithmetic fragment, two calls with the same query — in any two engine
states — produce the same provider classification, the same sub-query and
the same result list, all agreeing with the pure model; only a query whose
evaluation reads mutable engine state can differ between calls. -/
theorem C3_search_deterministic_amended (ω₁ ω₂ : String → Option JsNum)
    (q : String)
    (h : reachesMathBlock q = false ∨ (jsEval q).isSome = true) :
    routeIn ω₁ q = route q ∧ mockSearchIn ω₁ q = mockSearch q ∧
      routeIn ω₁ q = routeIn ω₂ q ∧ mockSearchIn ω₁ q = mockSearchIn ω₂ q := by
  have h1 := searchIn_eq_pure ω₁ q h
  have h2 := searchIn_eq_pure ω₂ q h
  exact ⟨h1.2, h1.1, h1.2.trans h2.2.symm, h1.1.trans h2.1.symm⟩

/-- C3 witness: the pure arithmetic query `2+3` and the prefix-routed query
`#cowork` give the same classification and results in both concrete engine
states. -/
theorem C3_search_deterministic_amended_witness :
    (routeIn engineEvenClock "2+3" = route "2+3" ∧
      mockSearchIn engineEvenClock "2+3" = mockSearch "2+3" ∧
      routeIn engineEvenClock "2+3" = routeIn engineOddClock "2+3" ∧
      mockSearchIn engineEvenClock "2+3" = mockSearchIn engineOddClock "2+3") ∧
    (routeIn engineEvenClock "#cowork" = route "#cowork" ∧
      mockSearchIn engineEvenClock "#cowork" = mockSearch "#cowork" ∧
      routeIn engineEvenClock "#cowork" = routeIn engineOddClock "#cowork" ∧
      mockSearchIn engineEvenClock "#cowork" = mockSearchIn engineOddClock "#cowork") :=
  ⟨C3_search_deterministic_amended engineEvenClock engineOddClock "2+3"
      (Or.inr (by decide)),
   C3_search_deterministic_amended engineEvenClock engineOddClock "#cowork"
      (Or.inl (by decide))⟩

/-- C5: any query made of a leading space whose trimmed remainder starts
with `*` followed by an empty (or whitespace-only) semantic query returns
the empty result list. -/
theorem C5_empty_vector_query (q : String)
    (hsp : startsWithL [' '] q.data = true)
    (hstar : startsWithL ['*'] (trimStartL q.data) = true)
    (hempty : trimL ((trimStartL q.data).drop 1) = []) :
    mockSearch q = [] := by
  obtain ⟨l⟩ := q
  cases l with
  | nil => exact absurd hsp (by decide)
  | cons c t =>
    have hc : c = ' ' := by
      simp only [startsWithL, Bool.and_true, beq_iff_eq] at hsp
      · exact hsp.symm
    subst hc
    rw [show mockSearch ⟨' ' :: t⟩ =
        (if startsWithL ['*'] (trimStartL ((String.mk (' ' :: t)).data)) then
          (if (trimL ((trimStartL ((String.mk (' ' :: t)).data)).drop 1)).isEmpty
            then ([] : List SearchResult)
            else vectorResults (trimL ((trimStartL ((String.mk (' ' :: t)).data)).drop 1)))
        else if !(trimStartL ((String.mk (' ' :: t)).data)).isEmpty then
          [fileResultOf (trimStartL ((String.mk (' ' :: t)).data))]
        else []) from rfl]
    rw [if_pos hstar, if_pos (by rw [hempty]; rfl)]

/-- C5 witness: the concrete query of a space, a star and trailing blanks
returns no results. -/
theorem C5_empty_vector_query_witness : mockSearch " *  " = [] :=
  C5_empty_vector_query " *  " (by decide) (by decide) (by decide)

/-- C6: a query starting with `?` yields, for an empty trimmed remainder,
exactly one non-actionable hint result of category `info`, and otherwise
exactly one placeholder result named `Ask: <text>` of category `chat`; the
mock search issues no backend call, and the AI request is the single
`chat_ask` invocation issued when a chat-category result is dispatched. -/
theorem C6_chat_routing (q : String) (st : AppState) (e : Option ModFlags)
    (override : Option SearchResult) (oc : BackendOutcome) (item : SearchResult)
    (hq : startsWithL ['?'] q.data = true) :
    (trimL (q.data.drop 1) = [] → mockSearch q = [chatHintResult]) ∧
    (trimL (q.data.drop 1) ≠ [] →
      mockSearch q = [chatAskOf (trimL (q.data.drop 1))]) ∧
    (resolveItem st override = some item → item.category = "chat" →
      (item.input_spec.isSome && !st.secondaryMode.active) = false →
      (executeAction st e override oc).2 = [Invocation.chatAsk st.query]) := by
  refine ⟨?_, ?_, ?_⟩
  · intro hempty
    obtain ⟨l⟩ := q
    cases l with
    | nil => exact absurd hq (by decide)
    | cons c t =>
      have hc : c = '?' := by
        simp only [startsWithL, Bool.and_true, beq_iff_eq] at hq
        · exact hq.symm
      subst hc
      rw [show mockSearch ⟨'?' :: t⟩ =
          (if (trimL (((String.mk ('?' :: t)).data).drop 1)).isEmpty
            then [chatHintResult]
            else [chatAskOf (trimL (((String.mk ('?' :: t)).data).drop 1))]) from rfl]
      rw [if_pos (by rw [hempty]; rfl)]
  · intro hne
    obtain ⟨l⟩ := q
    cases l with
    | nil => exact absurd hq (by decide)
    | cons c t =>
      have hc : c = '?' := by
        simp only [startsWithL, Bool.and_true, beq_iff_eq] at hq
        · exact hq.symm
      subst hc
      rw [show mockSearch ⟨'?' :: t⟩ =
          (if (trimL (((String.mk ('?' :: t)).data).drop 1)).isEmpty
            then [chatHintResult]
            else [chatAskOf (trimL (((String.mk ('?' :: t)).data).drop 1))]) from rfl]
      rw [if_neg (by rw [List.isEmpty_iff]; exact hne)]
  · intro hres hchat hphase
    have hinv := (executeAction_exec_spec st e override oc item hres hphase).1
    rw [hinv, if_pos hchat]

/-- C6 witness: the concrete queries `?` and `?hi`, and the dispatch of the
resulting chat placeholder. -/
theorem C6_chat_routing_witness :
    mockSearch "?" = [chatHintResult] ∧
      mockSearch "?hi" = [chatAskOf (trimL (("?hi".data).drop 1))] ∧
      (executeAction { baseState with query := "?hi", results := [chatAskResult] }
          (some flags0) none oc0).2 = [Invocation.chatAsk "?hi"] :=
  ⟨(C6_chat_routing "?" baseState none none oc0 chatAskResult (by decide)).1 (by decide),
   (C6_chat_routing "?hi" baseState none none oc0 chatAskResult (by decide)).2.1 (by decide),
   (C6_chat_routing "?hi" { baseState with query := "?hi", results := [chatAskResult] }
      (some flags0) none oc0 chatAskResult (by decide)).2.2 rfl rfl rfl⟩

/-- Every element of a prefix occurs in the longer list. -/
theorem startsWithL_subset : ∀ {pre s : List Char}, startsWithL pre s = true →
    ∀ c ∈ pre, c ∈ s := by
  intro pre
  induction pre with
  | nil => intro s _ c hc; exact absurd hc (List.not_mem_nil c)
  | cons p ps ih =>
    intro s h c hc
    cases s with
    | nil =>
      rw [show startsWithL (p :: ps) ([] : List Char) = false from rfl] at h
      exact absurd h (by decide)
    | cons x xs =>
      rw [show startsWithL (p :: ps) (x :: xs) = ((p == x) && startsWithL ps xs)
        from rfl, Bool.and_eq_true, beq_iff_eq] at h
      rcases List.mem_cons.mp hc with rfl | hc2
      · rw [h.1]; exact List.mem_cons_self x xs
      · exact List.mem_cons_of_mem x (ih h.2 c hc2)

/-- Every element of a contiguous occurrence occurs in the searched list. -/
theorem includesL_subset : ∀ {s pat : List Char}, includesL s pat = true →
    ∀ c ∈ pat, c ∈ s := by
  intro s
  induction s with
  | nil =>
    intro pat h c hc
    rw [show includesL [] pat = pat.isEmpty from rfl, List.isEmpty_iff] at h
    subst h
    exact absurd hc (List.not_mem_nil c)
  | cons x rest ih =>
    intro pat h c hc
    rw [show includesL (x :: rest) pat
        = (startsWithL pat (x :: rest) || includesL rest pat) from rfl,
      Bool.or_eq_true] at h
    rcases h with h | h
    · exact startsWithL_subset h c hc
    · exact List.mem_cons_of_mem x (ih h c hc)

/-- A query matched by `MATH_RE` contains a math character. -/
theorem mathReTest_exists {l : List Char} (h : mathReTest l = true) :
    ∃ c ∈ l, c ∈ mathChars := by
  unfold mathReTest at h
  obtain ⟨c, hc, hm⟩ := List.any_eq_true.mp h
  exact ⟨c, hc, by simpa using hm⟩

/-- Letters-only text never matches `MATH_RE`. -/
theorem alpha_no_mathReTest {l : List Char} (h : ∀ c ∈ l, c.isAlpha = true) :
    mathReTest l = false := by
  unfold mathReTest
  rw [List.any_eq_false]
  intro c hc hcontains
  have ha := h c hc
  have hmem : c ∈ mathChars := by simpa using hcontains
  simp only [mathChars, List.mem_cons, List.not_mem_nil, or_false] at hmem
  rcases hmem with rfl | rfl | rfl | rfl | rfl | rfl | rfl | rfl <;> simp at ha

/-- App search never matches a query containing a math character: no mock
application name contains one. -/
theorem appSearch_empty_of_mathChar (q : String) (h : mathReTest q.data = true) :
    appSearch q = [] := by
  obtain ⟨c, hcq, hcm⟩ := mathReTest_exists h
  simp only [appSearch]
  have hfilter :
      appsList.filter (fun a => includesL (toLowerL a.name.data) (toLowerL q.data)) = [] := by
    rw [List.filter_eq_nil_iff]
    intro a ha hinc
    have hclow : c ∈ toLowerL q.data := by
      have hmm := List.mem_map_of_mem Char.toLower hcq
      have hfix : c.toLower = c := by
        have hcm2 := hcm
        simp only [mathChars, List.mem_cons, List.not_mem_nil, or_false] at hcm2
        rcases hcm2 with rfl | rfl | rfl | rfl | rfl | rfl | rfl | rfl <;> rfl
      rw [hfix] at hmm
      exact hmm
    have hcname : c ∈ toLowerL a.name.data := includesL_subset hinc c hclow
    have hnone : ∀ a ∈ appsList, ∀ ch ∈ mathChars, ch ∉ toLowerL a.name.data := by
      decide
    exact hnone a ha c hcm hcname
  rw [hfilter]
  rfl

/-- If a result list is all-satisfying, so is any filtering of it. -/
theorem all_filter_of_all (l : List SearchResult) (p f : SearchResult → Bool)
    (h : l.all f = true) : (l.filter p).all f = true := by
  rw [List.all_eq_true] at h ⊢
  intro a ha
  exact h a (List.mem_filter.mp ha).1

/-- When the math regex does not match, no result of `mockSearch` has the
math category. -/
theorem mockSearch_no_math (q : String) (hre : mathReTest q.data = false) :
    (mockSearch q).all (fun r => !(r.category == "math")) = true := by
  simp only [mockSearch]
  split
  · decide
  split
  · exact all_filter_of_all _ _ _ (by decide)
  split
  · split
    · rfl
    · rfl
  split
  · rw [List.all_eq_true]
    intro r hr
    rw [List.mem_map] at hr
    obtain ⟨s, hs, rfl⟩ := hr
    rfl
  split
  · split
    · split
      · rfl
      · rfl
    · split
      · rfl
      · rfl
  split
  · split
    · rfl
    · rfl
  split
  · exact all_filter_of_all _ _ _ (by decide)
  have hmb : mathBranch q = none := by
    unfold mathBranch
    rw [if_neg (by rw [hre]; exact Bool.false_ne_true)]
  rw [hmb]
  rw [show (none : Option (List SearchResult)).getD (appSearch q) = appSearch q from rfl]
  rw [List.all_eq_true]
  intro r hr
  simp only [appSearch] at hr
  rw [List.mem_map] at hr
  obtain ⟨a, ha, rfl⟩ := hr
  rfl

/-- C4: the math provider maps `"2+3"` to exactly one result named `"= 5"`;
text consisting only of letters is never routed to the math provider; and
whenever the math block is reached but evaluation yields a non-finite value
(as for `"1/0"`), the search returns the empty list — the fall-through app
search cannot match a query containing a math character. -/
theorem C4_math_provider (q : String) (v : JsNum) :
    mockSearch "2+3" = [{ id := "math-result", name := "= 5", description := "2+3 = 5", icon := "", category := "math", exec := "" }] ∧
    ((∀ c ∈ q.data, c.isAlpha = true) →
      (mockSearch q).all (fun r => !(r.category == "math")) = true) ∧
    (reachesMathBlock q = true → jsEval q = some v → v.isFiniteNum = false →
      mockSearch q = []) := by
  refine ⟨by decide, ?_, ?_⟩
  · intro halpha
    exact mockSearch_no_math q (alpha_no_mathReTest halpha)
  · intro hreach hv hfin
    simp only [reachesMathBlock, Bool.and_eq_true, Bool.not_eq_true'] at hreach
    obtain ⟨⟨⟨⟨⟨⟨⟨h1, h2⟩, h3⟩, h4⟩, h5⟩, h6⟩, h7⟩, h8⟩ := hreach
    simp only [mockSearch]
    rw [if_neg (show ¬(q.data = []) from fun hn => by
      rw [hn] at h1; exact absurd h1 (by decide))]
    rw [if_neg (show ¬(startsWithL ['#'] q.data = true) from by
      rw [h2]; exact Bool.false_ne_true)]
    rw [if_neg (show ¬(startsWithL ['?'] q.data = true) from by
      rw [h3]; exact Bool.false_ne_true)]
    rw [if_neg (show ¬(startsWithL [':'] q.data = true) from by
      rw [h4]; exact Bool.false_ne_true)]
    rw [if_neg (show ¬(startsWithL [' '] q.data = true) from by
      rw [h5]; exact Bool.false_ne_true)]
    rw [if_neg (show ¬(startsWithL ['!'] q.data = true) from by
      rw [h6]; exact Bool.false_ne_true)]
    rw [if_neg (show ¬((startsWithL "ssh ".data q.data
        || decide (q.data = "ssh".data)) = true) from by
      rw [h7]; exact Bool.false_ne_true)]
    have hmb : mathBranch q = none := by
      simp only [mathBranch, h8, hv, hfin, reduceIte]
      rw [if_neg (by decide)]
    rw [hmb]
    rw [show (none : Option (List SearchResult)).getD (appSearch q) = appSearch q from rfl]
    exact appSearch_empty_of_mathChar q h8

/-- C4 witness: the concrete queries `"2+3"`, `"firefox"` (letters only) and
`"1/0"` (division by zero). -/
theorem C4_math_provider_witness :
    mockSearch "2+3" = [{ id := "math-result", name := "= 5", description := "2+3 = 5", icon := "", category := "math", exec := "" }] ∧
    (mockSearch "firefox").all (fun r => !(r.category == "math")) = true ∧
    mockSearch "1/0" = [] :=
  ⟨(C4_math_provider "firefox" JsNum.nan).1,
   (C4_math_provider "firefox" JsNum.nan).2.1 (by decide),
   (C4_math_provider "1/0" (JsNum.inf true)).2.2 (by decide) (by decide) (by decide)⟩

end Burrow
